import Mathlib

set_option maxRecDepth 40000

/-!
A shallow embedding of the source-navigation core of `mcshader-lsp`
(`server/main/src/navigation.rs`) together with proofs about its behaviour.

The navigation core resolves "go to definition" / "find references" requests
over a tree-sitter syntax tree.  The embedding models:

* the syntax tree (`STree`/`SForest`), node handles with their ancestor chain
  (`TSNode`), and spans (`Point`);
* the three query-string templates from the source macros, reproduced verbatim;
* the external collaborators the spec declares out of scope (the tree-sitter
  query engine, `Url::from_file_path`, and the `LineMap` position mapper),
  modelled from the spec's contracts — their definitions say so in their
  doc comments;
* the `ParserContext` operations `new`, `find_node_at_point`,
  `find_definitions`, `find_references`, `tree_climbing_search` and
  `simple_global_search`, translated statement-by-statement from the source.

Rust `Result` values together with the possibility of a `panic!` (from
`unwrap()` on `None`/`Err` and from out-of-bounds indexing / integer
underflow) are modelled by the three-valued `Outcome` type, which keeps a
propagated error distinct from a crash.
-/

/-- A tree-sitter `Point`: a zero-based row/column pair. -/
structure Point where
  row : Nat
  column : Nat

/-- An LSP `Position`: zero-based line/character, as supplied by the caller. -/
structure Position where
  line : Nat
  character : Nat

/-- An LSP `Range`; the Rust field `end` is spelled `endPos` because `end` is a
Lean keyword. -/
structure Range where
  start : Position
  endPos : Position

/-- An LSP `Location`: a file URI (modelled as its string form) plus a range. -/
structure Location where
  uri : String
  range : Range

mutual
/-- A tree-sitter syntax-tree node: a kind tag, whether the node is named,
its span, the source text it covers, and its children in order. -/
inductive STree where
  | mk (kind : String) (named : Bool) (startPos endPos : Point) (text : String)
       (children : SForest)
/-- The children of a node, as a bespoke list so that mutual structural
recursion over the tree is available. -/
inductive SForest where
  | nil
  | cons (head : STree) (tail : SForest)
end

def STree.kind : STree → String
  | .mk k _ _ _ _ _ => k

def STree.named : STree → Bool
  | .mk _ n _ _ _ _ => n

def STree.startPos : STree → Point
  | .mk _ _ s _ _ _ => s

def STree.endPos : STree → Point
  | .mk _ _ _ e _ _ => e

/-- The text covered by a node.  In the source this is
`Node::utf8_text(source.as_bytes())`; the model stores the covered text in the
node itself (the source text is valid UTF-8 and node spans are produced by the
grammar, so the extraction is total). -/
def STree.text : STree → String
  | .mk _ _ _ _ tx _ => tx

def STree.children : STree → SForest
  | .mk _ _ _ _ _ cs => cs

/-- A node handle as handed out by the tree: the node itself plus its chain of
ancestors, nearest first (`spine = [parent, grandparent, …, root]`). -/
structure TSNode where
  spine : List STree
  node : STree

/-- `Node::parent()`: the nearest ancestor, or `none` at the root. -/
def TSNode.parent : TSNode → Option TSNode
  | ⟨[], _⟩ => none
  | ⟨a :: rest, _⟩ => some ⟨rest, a⟩

/-- Lexicographic order on points (row-major), as `Bool`. -/
def pointLe (a b : Point) : Bool :=
  Nat.blt a.row b.row || (a.row == b.row && Nat.ble a.column b.column)

/-- Whether the node's span contains the point range `[s, e]`. -/
def STree.containsRange (t : STree) (s e : Point) : Bool :=
  pointLe t.startPos s && pointLe e t.endPos

mutual
/-- Modelled from the spec: the descent step of tree-sitter's
`named_descendant_for_point_range` — at a node containing the range, remember
it when it is named, then descend into the first child that still contains the
range; the smallest (deepest) named node seen wins.  `anc` is the ancestor
chain of `t`, nearest first. -/
def descend (anc : List STree) (s e : Point) (t : STree) (best : Option TSNode) :
    Option TSNode :=
  match t with
  | .mk k n sp ep tx cs =>
    let best1 := if n then some ⟨anc, .mk k n sp ep tx cs⟩ else best
    descendF (.mk k n sp ep tx cs :: anc) s e cs best1
/-- Modelled from the spec: scan the children for the first one whose span
contains the range and descend into it. -/
def descendF (anc : List STree) (s e : Point) (f : SForest) (best : Option TSNode) :
    Option TSNode :=
  match f with
  | .nil => best
  | .cons c rest =>
    if c.containsRange s e then descend anc s e c best else descendF anc s e rest best
end

/-- Modelled from the spec: tree-sitter's `named_descendant_for_point_range` —
the smallest named node of `root` spanning `[s, e]`, or `none` when no named
node covers the range.  (tree-sitter is an external collaborator; the spec's
Node Locator section states this contract.) -/
def namedDescendantForPointRange (root : STree) (s e : Point) : Option TSNode :=
  if root.containsRange s e then descend [] s e root none else none

/-- Modelled from the spec: the `LineMap` position mapper (its source file is
not part of this core); it is built once from the source text by scanning line
boundaries. -/
structure LineMap where
  lineStarts : List Nat

/-- Modelled from the spec: collect the byte offsets at which lines start;
`i` is the offset of the first byte of the remaining list. -/
def lineStartsFrom : List Nat → Nat → List Nat
  | [], _ => []
  | b :: rest, i =>
    if b == 10 then (i + 1) :: lineStartsFrom rest (i + 1)
    else lineStartsFrom rest (i + 1)

/-- Modelled from the spec: `LineMap::new` scans the full text once for line
boundaries. -/
def LineMap.new (source : List Nat) : LineMap :=
  ⟨0 :: lineStartsFrom source 0⟩

/-- Modelled from the spec: `offset_for_position` converts a line/character
cursor position to a byte offset (line start plus character). -/
def LineMap.offset_for_position (lm : LineMap) (pos : Position) : Nat :=
  lm.lineStarts.getD pos.line 0 + pos.character

/-- The part of the `find_function_def_str!` template before the `{}` slot,
verbatim from the source macro. -/
def FUNC_DEF_PRE : String :=
  "\n            (\n                (function_declarator \n                    (identifier) @function)\n                (#match? @function \"^"

/-- The part of the `find_function_def_str!` template after the `{}` slot. -/
def FUNC_DEF_SUF : String :=
  "$\")\n            )\n        "

/-- The part of the `find_function_refs_str!` template before the `{}` slot,
verbatim from the source macro. -/
def FUNC_REFS_PRE : String :=
  "\n            (\n                (call_expression \n                    (identifier) @call)\n                (#match? @call \"^"

/-- The part of the `find_function_refs_str!` template after the `{}` slot. -/
def FUNC_REFS_SUF : String :=
  "$\")\n            )\n        "

/-- The part of the `find_variable_def_str!` template before the `{}` slot,
verbatim from the source macro. -/
def VAR_DEF_PRE : String :=
  "\n            (\n                [\n                    (init_declarator \n                        (identifier) @variable)\n                        \n                    (parameter_declaration\n                        (identifier) @variable)\n                        \n                    (declaration\n                        (identifier) @variable)\n                    \n                    (#match? @variable \"^"

/-- The part of the `find_variable_def_str!` template after the `{}` slot. -/
def VAR_DEF_SUF : String :=
  "$\")\n                ]\n            )\t        \n        "

/-- `format!(find_function_def_str!(), ident)`. -/
def find_function_def_str (ident : String) : String :=
  FUNC_DEF_PRE ++ ident ++ FUNC_DEF_SUF

/-- `format!(find_function_refs_str!(), ident)`. -/
def find_function_refs_str (ident : String) : String :=
  FUNC_REFS_PRE ++ ident ++ FUNC_REFS_SUF

/-- `format!(find_variable_def_str!(), ident)`. -/
def find_variable_def_str (ident : String) : String :=
  VAR_DEF_PRE ++ ident ++ VAR_DEF_SUF

/-- Characters that break the generated pattern when interpolated into it:
they end the S-expression string literal or are regular-expression
metacharacters (the spec flags exactly this injection risk). -/
def patternSpecial (c : Char) : Bool :=
  c == '\"' || c == '\\' || c == '(' || c == ')' || c == '[' || c == ']' ||
  c == '^' || c == '$' || c == '.' || c == '*' || c == '+' || c == '?' || c == '|'

/-- An identifier is safe to interpolate when it contains no pattern-breaking
character. -/
def identSafe (s : String) : Bool :=
  s.data.all (fun c => !patternSpecial c)

/-- If `s = pre ++ mid ++ suf`, recover `mid`; used to recognise which of the
three fixed templates a query string was built from. -/
def extractSlot (pre suf s : List Char) : Option (List Char) :=
  if pre.isPrefixOf s && suf.isSuffixOf s && Nat.ble (pre.length + suf.length) s.length then
    some ((s.drop pre.length).take (s.length - pre.length - suf.length))
  else none

/-- The structural shape of one of the three query templates. -/
inductive PatternKind where
  | functionDef
  | functionRefs
  | variableDef

/-- A compiled query: which template it came from and the interpolated
identifier (whose anchored regular expression is `^ident$`). -/
structure CompiledQuery where
  kind : PatternKind
  ident : String

/-- Modelled from the spec: `tree_sitter::Query::new` compiles a query string
against the grammar.  The only query strings this core builds are the three
templates with an interpolated identifier; compilation succeeds exactly when
the string is such an instance whose identifier contains no pattern-breaking
character, and fails (a propagated `Err`) otherwise. -/
def Query.new (query_str : String) : Except String CompiledQuery :=
  match extractSlot FUNC_DEF_PRE.data FUNC_DEF_SUF.data query_str.data with
  | some i => if identSafe ⟨i⟩ then .ok ⟨.functionDef, ⟨i⟩⟩ else .error "Invalid syntax"
  | none =>
  match extractSlot FUNC_REFS_PRE.data FUNC_REFS_SUF.data query_str.data with
  | some i => if identSafe ⟨i⟩ then .ok ⟨.functionRefs, ⟨i⟩⟩ else .error "Invalid syntax"
  | none =>
  match extractSlot VAR_DEF_PRE.data VAR_DEF_SUF.data query_str.data with
  | some i => if identSafe ⟨i⟩ then .ok ⟨.variableDef, ⟨i⟩⟩ else .error "Invalid syntax"
  | none => .error "Invalid syntax"

/-- Modelled from the spec: the `#match?` predicate applies a regular
expression to a capture's text.  The only regular expressions this core builds
are exact-match-anchored literals `^ident$` (with `ident` free of
metacharacters), for which the predicate holds exactly when the text between
the anchors equals the capture's text. -/
def regexTest (pattern text : String) : Bool :=
  pattern.data.head? == some '^' && pattern.data.getLast? == some '$' &&
    text.data == (pattern.data.drop 1).dropLast

/-- The node kinds a compiled template matches on (the parent of the captured
identifier). -/
def CompiledQuery.parentKinds : CompiledQuery → List String
  | ⟨.functionDef, _⟩ => ["function_declarator"]
  | ⟨.functionRefs, _⟩ => ["call_expression"]
  | ⟨.variableDef, _⟩ => ["init_declarator", "parameter_declaration", "declaration"]

mutual
/-- Modelled from the spec: executing a compiled query over a subtree
(`QueryCursor::matches` followed by iterating the captures) — every node of
the subtree whose kind is one of the template's parent kinds contributes its
`identifier` children whose text passes the anchored `#match?` predicate, in
traversal order. -/
def queryCaptures (q : CompiledQuery) (t : STree) : List STree :=
  match t with
  | .mk k _ _ _ _ cs =>
    (if q.parentKinds.contains k then matchChildren q cs else []) ++ queryCapturesF q cs
/-- Modelled from the spec: the `identifier` children of a matched node whose
text passes the anchored `#match?` predicate. -/
def matchChildren (q : CompiledQuery) (f : SForest) : List STree :=
  match f with
  | .nil => []
  | .cons c rest =>
    (if c.kind == "identifier" && regexTest ("^" ++ q.ident ++ "$") c.text then [c] else []) ++
      matchChildren q rest
/-- Modelled from the spec: query execution over a forest of subtrees. -/
def queryCapturesF (q : CompiledQuery) (f : SForest) : List STree :=
  match f with
  | .nil => []
  | .cons c rest => queryCaptures q c ++ queryCapturesF q rest
end

/-- A propagated error of the navigation core (`anyhow::Error` in the source):
an I/O error from reading the file or a query-compilation error. -/
inductive NavError where
  | io (msg : String)
  | query (msg : String)

/-- The outcome of running a fallible Rust computation: a value, a propagated
error (`Err`), or a crash of the thread (`panic!`, e.g. from `unwrap()`). -/
inductive Outcome (α : Type) where
  | ok (a : α)
  | error (e : NavError)
  | panic

/-- Sequencing that propagates both errors and panics. -/
def Outcome.bind {α β : Type} : Outcome α → (α → Outcome β) → Outcome β
  | .ok a, f => f a
  | .error e, _ => .error e
  | .panic, _ => .panic

/-- Mapping over a successful outcome. -/
def Outcome.map {α β : Type} (f : α → β) : Outcome α → Outcome β
  | .ok a => .ok (f a)
  | .error e => .error e
  | .panic => .panic

/-- Modelled from the spec: `Url::from_file_path` succeeds only for a path
convertible to a `file://` URI (an absolute path) and fails for an invalid
(relative) path. -/
def Url.from_file_path (path : String) : Option String :=
  if path.data.head? == some '/' then some ("file://" ++ path) else none

/-- The `Location` pushed for one capture (navigation.rs lines 162–174 and
199–211): the file URI plus the capture node's start/end positions. -/
def nodeLocation (uri : String) (node : STree) : Location :=
  { uri := uri,
    range := { start := ⟨node.startPos.row, node.startPos.column⟩,
               endPos := ⟨node.endPos.row, node.endPos.column⟩ } }

/-- The capture-collection loop body shared by both searches: for each capture
build the URI with `Url::from_file_path(path).unwrap()` — a panic when the
conversion fails — and push the capture's location. -/
def pushLocations (path : String) : List STree → Outcome (List Location)
  | [] => .ok []
  | c :: rest =>
    match Url.from_file_path path with
    | none => .panic
    | some uri => (pushLocations path rest).map (fun ls => nodeLocation uri c :: ls)

/-- The per-request navigation context (navigation.rs `ParserContext`): the
source text (as bytes), the parsed tree and the position mapper.  The
exclusive parser borrow carries no further behaviour and is dropped. -/
structure ParserContext where
  source : List Nat
  tree : STree
  linemap : LineMap

/-- `ParserContext::new` (navigation.rs lines 64–77): read the file —
propagating an I/O error with `?` — then parse it, where the `Option` returned
by `Parser::parse` is `unwrap`ped (a panic when parsing fails), and build the
line map.  Reading the file and running the parser are external effects,
passed in as the result of the read and the parse function. -/
def ParserContext.new (readResult : Except String (List Nat))
    (parse : List Nat → Option STree) : Outcome ParserContext :=
  match readResult with
  | .error e => .error (.io e)
  | .ok source =>
    match parse source with
    | none => .panic
    | some tree => .ok { source := source, tree := tree, linemap := LineMap.new source }

/-- `ParserContext::root_node`. -/
def ParserContext.root_node (ctx : ParserContext) : STree :=
  ctx.tree

/-- `u8::is_ascii_alphabetic` on a byte value. -/
def isAsciiAlphabetic (b : Nat) : Bool :=
  (65 ≤ b && b ≤ 90) || (97 ≤ b && b ≤ 122)

/-- `ParserContext::find_node_at_point` (navigation.rs lines 222–262): read
the single byte at the mapped offset — an unchecked index, hence a panic when
the offset is not below the source length; when it is not ASCII-alphabetic
take the look-behind range `[character - 1, character]` — where
`start.column -= 1` underflows (modelled as a panic) when `character = 0` —
and otherwise the range `[character, character + 1]`; then ask the tree for
the smallest named node spanning that range. -/
def ParserContext.find_node_at_point (ctx : ParserContext) (pos : Position) :
    Outcome (Option TSNode) :=
  match ctx.source[ctx.linemap.offset_for_position pos]? with
  | none => .panic
  | some char_at =>
    let look_behind := !isAsciiAlphabetic char_at
    if look_behind then
      match pos.character with
      | 0 => .panic
      | c + 1 =>
        .ok (namedDescendantForPointRange ctx.tree ⟨pos.line, c⟩ ⟨pos.line, c + 1⟩)
    else
      .ok (namedDescendantForPointRange ctx.tree ⟨pos.line, pos.character⟩
            ⟨pos.line, pos.character + 1⟩)

/-- `ParserContext::simple_global_search` (navigation.rs lines 188–216):
compile the query string — propagating a compile error with `?` — run it over
the whole tree's root, and collect every capture's location. -/
def ParserContext.simple_global_search (ctx : ParserContext) (path : String)
    (query_str : String) : Outcome (List Location) :=
  match Query.new query_str with
  | .error e => .error (.query e)
  | .ok query => pushLocations path (queryCaptures query ctx.root_node)

/-- The `loop` of `tree_climbing_search` (navigation.rs lines 146–183),
written as recursion over the remaining ancestor chain (`none`-parent is the
empty list): stop with the locations accumulated so far — the empty list —
when no parent is left; otherwise compile the query (each iteration, with `?`
propagation), collect the captures over the current ancestor's subtree, and
stop when any location was produced, else climb to the next ancestor. -/
def climbLoop (path : String) (query_str : String) : List STree → Outcome (List Location)
  | [] => .ok []
  | a :: rest =>
    match Query.new query_str with
    | .error e => .error (.query e)
    | .ok query =>
      match pushLocations path (queryCaptures query a) with
      | .ok locations => if locations.isEmpty then climbLoop path query_str rest
                         else .ok locations
      | o => o

/-- `ParserContext::tree_climbing_search` (navigation.rs lines 135–186): build
the variable-definition query for the node's text, then climb from the node's
immediate parent upward; the ancestor chain of `start_node` is its spine. -/
def ParserContext.tree_climbing_search (_ctx : ParserContext) (path : String)
    (start_node : TSNode) : Outcome (List Location) :=
  let node_text := start_node.node.text
  let query_str := find_variable_def_str node_text
  climbLoop path query_str start_node.spine

/-- `ParserContext::find_definitions` (navigation.rs lines 79–109): locate the
node under the cursor (`None` ⇒ `Ok(None)`), require a parent (`None` ⇒
`Ok(None)`), then match on the (node kind, parent kind) pair: any kind under a
`call_expression` runs the global function-definition search; an `identifier`
under an `argument_list`, `field_expression`, `binary_expression` or
`assignment_expression` runs the scope-climbing variable search; anything else
is `Ok(None)`. -/
def ParserContext.find_definitions (ctx : ParserContext) (path : String)
    (point : Position) : Outcome (Option (List Location)) :=
  (ctx.find_node_at_point point).bind fun found =>
  match found with
  | none => .ok none
  | some current_node =>
    match current_node.parent with
    | none => .ok none
    | some parent =>
      if parent.node.kind = "call_expression" then
        (ctx.simple_global_search path (find_function_def_str current_node.node.text)).map some
      else if current_node.node.kind = "identifier" ∧
          (parent.node.kind = "argument_list" ∨ parent.node.kind = "field_expression" ∨
           parent.node.kind = "binary_expression" ∨ parent.node.kind = "assignment_expression") then
        (ctx.tree_climbing_search path current_node).map some
      else .ok none

/-- `ParserContext::find_references` (navigation.rs lines 111–133): locate the
node under the cursor (`None` ⇒ `Ok(None)`), require a parent (`None` ⇒
`Ok(None)`); any kind under a `function_declarator` runs the global
call-expression search, anything else is `Ok(None)`. -/
def ParserContext.find_references (ctx : ParserContext) (path : String)
    (point : Position) : Outcome (Option (List Location)) :=
  (ctx.find_node_at_point point).bind fun found =>
  match found with
  | none => .ok none
  | some current_node =>
    match current_node.parent with
    | none => .ok none
    | some parent =>
      if parent.node.kind = "function_declarator" then
        (ctx.simple_global_search path (find_function_refs_str current_node.node.text)).map some
      else .ok none

/-- The definition-side decision table of the spec's Role Classifier: any kind
under a `call_expression`, or an `identifier` under one of the four
variable-use parent kinds. -/
def classifiedDef (childKind parentKind : String) : Bool :=
  parentKind == "call_expression" ||
    (childKind == "identifier" &&
      (parentKind == "argument_list" || parentKind == "field_expression" ||
       parentKind == "binary_expression" || parentKind == "assignment_expression"))

/-- The strategy the spec's decision table picks for a classified
definition lookup. -/
def chosenDefStrategy (ctx : ParserContext) (path : String) (n p : TSNode) :
    Outcome (List Location) :=
  if p.node.kind = "call_expression" then
    ctx.simple_global_search path (find_function_def_str n.node.text)
  else
    ctx.tree_climbing_search path n

/-!  Concrete trees used by the witnesses.  Example A is the parse of
`foo();\nvoid foo(a){}\n`: a call on line 0 and the function definition on
line 1. -/

def identFooCall : STree := .mk "identifier" true ⟨0, 0⟩ ⟨0, 3⟩ "foo" .nil

def argListA : STree := .mk "argument_list" true ⟨0, 3⟩ ⟨0, 5⟩ "()" .nil

def callExprA : STree :=
  .mk "call_expression" true ⟨0, 0⟩ ⟨0, 5⟩ "foo()" (.cons identFooCall (.cons argListA .nil))

def exprStmtA : STree :=
  .mk "expression_statement" true ⟨0, 0⟩ ⟨0, 6⟩ "foo();" (.cons callExprA .nil)

def identFooDecl : STree := .mk "identifier" true ⟨1, 5⟩ ⟨1, 8⟩ "foo" .nil

def paramListA : STree := .mk "parameter_list" true ⟨1, 8⟩ ⟨1, 11⟩ "(a)" .nil

def funcDeclA : STree :=
  .mk "function_declarator" true ⟨1, 5⟩ ⟨1, 11⟩ "foo(a)" (.cons identFooDecl (.cons paramListA .nil))

def voidTypeA : STree := .mk "primitive_type" true ⟨1, 0⟩ ⟨1, 4⟩ "void" .nil

def bodyA : STree := .mk "compound_statement" true ⟨1, 11⟩ ⟨1, 13⟩ "" .nil

def funcDefA : STree :=
  .mk "function_definition" true ⟨1, 0⟩ ⟨1, 13⟩ "void foo(a)\x7b\x7d"
    (.cons voidTypeA (.cons funcDeclA (.cons bodyA .nil)))

def rootA : STree :=
  .mk "translation_unit" true ⟨0, 0⟩ ⟨2, 0⟩ "foo();\nvoid foo(a)\x7b\x7d\n"
    (.cons exprStmtA (.cons funcDefA .nil))

/-- The bytes of `foo();\nvoid foo(a){}\n`. -/
def srcA : List Nat :=
  [102, 111, 111, 40, 41, 59, 10, 118, 111, 105, 100, 32, 102, 111, 111, 40, 97, 41, 123, 125, 10]

def ctxA : ParserContext := { source := srcA, tree := rootA, linemap := LineMap.new srcA }

/-!  Example B: nested blocks in which the outer scope declares `x` on line 1,
an inner block re-declares `x` on line 2, and line 3 assigns through `x`
inside the inner block — the spec's shadowing scenario.  The witnesses call
the climbing search on the use-site node directly, so only the tree is
needed. -/

def identXOuter : STree := .mk "identifier" true ⟨1, 8⟩ ⟨1, 9⟩ "x" .nil

def initDeclOuter : STree :=
  .mk "init_declarator" true ⟨1, 8⟩ ⟨1, 13⟩ "x = 1"
    (.cons identXOuter (.cons (.mk "number_literal" true ⟨1, 12⟩ ⟨1, 13⟩ "1" .nil) .nil))

def declOuter : STree :=
  .mk "declaration" true ⟨1, 4⟩ ⟨1, 14⟩ "int x = 1;"
    (.cons (.mk "primitive_type" true ⟨1, 4⟩ ⟨1, 7⟩ "int" .nil) (.cons initDeclOuter .nil))

def identXInner : STree := .mk "identifier" true ⟨2, 8⟩ ⟨2, 9⟩ "x" .nil

def initDeclInner : STree :=
  .mk "init_declarator" true ⟨2, 8⟩ ⟨2, 13⟩ "x = 2"
    (.cons identXInner (.cons (.mk "number_literal" true ⟨2, 12⟩ ⟨2, 13⟩ "2" .nil) .nil))

def declInner : STree :=
  .mk "declaration" true ⟨2, 4⟩ ⟨2, 14⟩ "int x = 2;"
    (.cons (.mk "primitive_type" true ⟨2, 4⟩ ⟨2, 7⟩ "int" .nil) (.cons initDeclInner .nil))

def identXUse : STree := .mk "identifier" true ⟨3, 8⟩ ⟨3, 9⟩ "x" .nil

def assignB : STree :=
  .mk "assignment_expression" true ⟨3, 4⟩ ⟨3, 9⟩ "y = x"
    (.cons (.mk "identifier" true ⟨3, 4⟩ ⟨3, 5⟩ "y" .nil) (.cons identXUse .nil))

def exprStmtB : STree :=
  .mk "expression_statement" true ⟨3, 4⟩ ⟨3, 10⟩ "y = x;" (.cons assignB .nil)

def innerBlockB : STree :=
  .mk "compound_statement" true ⟨2, 0⟩ ⟨4, 1⟩ "" (.cons declInner (.cons exprStmtB .nil))

def outerBlockB : STree :=
  .mk "compound_statement" true ⟨1, 0⟩ ⟨5, 1⟩ "" (.cons declOuter (.cons innerBlockB .nil))

def rootB : STree :=
  .mk "translation_unit" true ⟨0, 0⟩ ⟨6, 0⟩ "" (.cons outerBlockB .nil)

/-- The use-site `x` of line 3 with its ancestor chain. -/
def xUseNode : TSNode :=
  ⟨[assignB, exprStmtB, innerBlockB, outerBlockB, rootB], identXUse⟩

/-- A use-site node for an undeclared variable `y`, for the empty-climb
witness. -/
def yUseNode : TSNode :=
  ⟨[assignB, exprStmtB, innerBlockB, outerBlockB, rootB],
    .mk "identifier" true ⟨3, 4⟩ ⟨3, 5⟩ "y" .nil⟩

def ctxB : ParserContext := { source := [], tree := rootB, linemap := LineMap.new [] }

/-!  Example C: the parse of `fo"o();` — a call whose callee identifier
contains a double quote, so that interpolating it into a query template
produces a malformed query. -/

def identQuoteC : STree := .mk "identifier" true ⟨0, 0⟩ ⟨0, 4⟩ "fo\"o" .nil

def argListC : STree := .mk "argument_list" true ⟨0, 4⟩ ⟨0, 6⟩ "()" .nil

def callExprC : STree :=
  .mk "call_expression" true ⟨0, 0⟩ ⟨0, 6⟩ "fo\"o()" (.cons identQuoteC (.cons argListC .nil))

def exprStmtC : STree :=
  .mk "expression_statement" true ⟨0, 0⟩ ⟨0, 7⟩ "fo\"o();" (.cons callExprC .nil)

def rootC : STree :=
  .mk "translation_unit" true ⟨0, 0⟩ ⟨1, 0⟩ "fo\"o();\n" (.cons exprStmtC .nil)

/-- The bytes of `fo"o();`. -/
def srcC : List Nat := [102, 111, 34, 111, 40, 41, 59, 10]

def ctxC : ParserContext := { source := srcC, tree := rootC, linemap := LineMap.new srcC }

/-!  Example D: the parse of `(a);` — line 0 starts with a non-alphabetic
byte, so a cursor at character 0 takes the look-behind branch. -/

def rootD : STree := .mk "translation_unit" true ⟨0, 0⟩ ⟨1, 0⟩ "(a);\n" .nil

/-- The bytes of `(a);`. -/
def srcD : List Nat := [40, 97, 41, 59, 10]

def ctxD : ParserContext := { source := srcD, tree := rootD, linemap := LineMap.new srcD }

/-!  Helper lemmas about the capture-collection loop. -/

theorem pushLocations_some {path uri : String} (h : Url.from_file_path path = some uri) :
    ∀ cs : List STree, pushLocations path cs = .ok (cs.map (nodeLocation uri))
  | [] => rfl
  | c :: rest => by
    simp only [pushLocations, h, pushLocations_some h rest, Outcome.map, List.map]

theorem pushLocations_none {path : String} (h : Url.from_file_path path = none) :
    ∀ cs : List STree, pushLocations path cs = if cs.isEmpty then .ok [] else .panic
  | [] => rfl
  | c :: rest => by simp only [pushLocations, h, List.isEmpty_cons, if_false, Bool.false_eq_true]

theorem pushLocations_ne_error (path : String) (cs : List STree) (e : NavError) :
    pushLocations path cs ≠ .error e := by
  cases h : Url.from_file_path path with
  | none =>
    rw [pushLocations_none h]
    cases cs <;> simp
  | some uri => rw [pushLocations_some h]; simp

theorem pushLocations_ok_isEmpty {path : String} {cs : List STree} {locs : List Location}
    (h : pushLocations path cs = .ok locs) : locs.isEmpty = cs.isEmpty := by
  cases hu : Url.from_file_path path with
  | none =>
    rw [pushLocations_none hu] at h
    cases cs with
    | nil => cases h; rfl
    | cons c rest => simp at h
  | some uri =>
    rw [pushLocations_some hu] at h
    cases h
    cases cs <;> rfl

/-- A mapped-over outcome is never `ok none`: `Some` is wrapped around every
successful strategy result. -/
theorem outcome_map_some_ne_ok_none {α : Type} (o : Outcome α) :
    o.map (fun a => (some a : Option α)) ≠ .ok none := by
  cases o <;> simp [Outcome.map]

/-- The Boolean decision table agrees with its propositional reading. -/
theorem classifiedDef_eq_true {c k : String} :
    classifiedDef c k = true ↔
      k = "call_expression" ∨
        (c = "identifier" ∧
          (k = "argument_list" ∨ k = "field_expression" ∨
           k = "binary_expression" ∨ k = "assignment_expression")) := by
  simp only [classifiedDef, Bool.or_eq_true, Bool.and_eq_true, beq_iff_eq]
  tauto

/-- C1: `find_definitions` answers `Ok(None)` exactly when the locator finds
no named node at the cursor, the located node has no parent, or the
(node kind, parent kind) pair is outside the decision table; in every
classified case it answers the chosen strategy's outcome with `Some` wrapped
around the locations. -/
theorem find_definitions_decision (ctx : ParserContext) (path : String) (point : Position) :
    (ctx.find_definitions path point = .ok none ↔
      (ctx.find_node_at_point point = .ok none ∨
       (∃ n, ctx.find_node_at_point point = .ok (some n) ∧ n.parent = none) ∨
       (∃ n p, ctx.find_node_at_point point = .ok (some n) ∧ n.parent = some p ∧
          classifiedDef n.node.kind p.node.kind = false))) ∧
    (∀ n p, ctx.find_node_at_point point = .ok (some n) → n.parent = some p →
       classifiedDef n.node.kind p.node.kind = true →
       ctx.find_definitions path point = (chosenDefStrategy ctx path n p).map some) := by
  cases hf : ctx.find_node_at_point point with
  | panic =>
    refine ⟨?_, ?_⟩
    · simp [ParserContext.find_definitions, hf, Outcome.bind]
    · intro n p hn; cases hn
  | error e =>
    refine ⟨?_, ?_⟩
    · simp [ParserContext.find_definitions, hf, Outcome.bind]
    · intro n p hn; cases hn
  | ok found =>
    cases found with
    | none =>
      refine ⟨?_, ?_⟩
      · simp [ParserContext.find_definitions, hf, Outcome.bind]
      · intro n p hn; cases hn
    | some n =>
      cases hp : n.parent with
      | none =>
        refine ⟨⟨fun _ => Or.inr (Or.inl ⟨n, rfl, hp⟩), fun _ => ?_⟩, ?_⟩
        · simp [ParserContext.find_definitions, hf, Outcome.bind, hp]
        · intro n' p' hn' hp' _
          cases hn'
          rw [hp] at hp'
          cases hp'
      | some p =>
        by_cases h1 : p.node.kind = "call_expression"
        · refine ⟨⟨?_, ?_⟩, ?_⟩
          · intro habs
            simp only [ParserContext.find_definitions, hf, Outcome.bind, hp, h1,
              if_true] at habs
            exact absurd habs (outcome_map_some_ne_ok_none _)
          · rintro (h | ⟨n', hn', hpar⟩ | ⟨n', p', hn', hpar, hcl⟩)
            · cases h
            · cases hn'
              rw [hp] at hpar; cases hpar
            · cases hn'
              rw [hp] at hpar
              cases hpar
              rw [classifiedDef_eq_true.mpr (Or.inl h1)] at hcl
              cases hcl
          · intro n' p' hn' hp' _
            cases hn'
            rw [hp] at hp'
            cases hp'
            simp only [ParserContext.find_definitions, hf, Outcome.bind, hp, h1, if_true,
              chosenDefStrategy, if_pos h1]
        · by_cases h2 : n.node.kind = "identifier" ∧
            (p.node.kind = "argument_list" ∨ p.node.kind = "field_expression" ∨
             p.node.kind = "binary_expression" ∨ p.node.kind = "assignment_expression")
          · refine ⟨⟨?_, ?_⟩, ?_⟩
            · intro habs
              simp only [ParserContext.find_definitions, hf, Outcome.bind, hp,
                if_neg h1, if_pos h2] at habs
              exact absurd habs (outcome_map_some_ne_ok_none _)
            · rintro (h | ⟨n', hn', hpar⟩ | ⟨n', p', hn', hpar, hcl⟩)
              · cases h
              · cases hn'
                rw [hp] at hpar; cases hpar
              · cases hn'
                rw [hp] at hpar
                cases hpar
                rw [classifiedDef_eq_true.mpr (Or.inr h2)] at hcl
                cases hcl
            · intro n' p' hn' hp' _
              cases hn'
              rw [hp] at hp'
              cases hp'
              simp only [ParserContext.find_definitions, hf, Outcome.bind, hp,
                if_neg h1, if_pos h2, chosenDefStrategy]
          · refine ⟨⟨fun _ => ?_, fun _ => ?_⟩, ?_⟩
            · refine Or.inr (Or.inr ⟨n, p, rfl, hp, ?_⟩)
              rw [Bool.eq_false_iff]
              intro hcl
              rcases classifiedDef_eq_true.mp hcl with h | h
              · exact h1 h
              · exact h2 h
            · simp [ParserContext.find_definitions, hf, Outcome.bind, hp,
                if_neg h1, if_neg h2]
            · intro n' p' hn' hp' hcl
              cases hn'
              rw [hp] at hp'
              cases hp'
              rcases classifiedDef_eq_true.mp hcl with h | h
              · exact absurd h h1
              · exact absurd h h2

/-- Witness for C1: in the parse of `foo();\nvoid foo(a){}`, the cursor on
the callee identifier classifies as (identifier, call_expression) and
`find_definitions` runs the global function-definition search. -/
theorem find_definitions_decision_witness :
    ctxA.find_definitions "/f.glsl" ⟨0, 1⟩ =
      (chosenDefStrategy ctxA "/f.glsl" ⟨[callExprA, exprStmtA, rootA], identFooCall⟩
        ⟨[exprStmtA, rootA], callExprA⟩).map some :=
  (find_definitions_decision ctxA "/f.glsl" ⟨0, 1⟩).2
    ⟨[callExprA, exprStmtA, rootA], identFooCall⟩
    ⟨[exprStmtA, rootA], callExprA⟩ rfl rfl rfl

/-- C5: `find_references` answers `Ok(None)` unless the located node exists,
has a parent, and that parent's kind is `function_declarator`; in that case it
answers `Some` of the single whole-tree search for call-expressions whose
identifier equals the located node's text. -/
theorem find_references_decision (ctx : ParserContext) (path : String) (point : Position) :
    (ctx.find_references path point = .ok none ↔
      (ctx.find_node_at_point point = .ok none ∨
       (∃ n, ctx.find_node_at_point point = .ok (some n) ∧ n.parent = none) ∨
       (∃ n p, ctx.find_node_at_point point = .ok (some n) ∧ n.parent = some p ∧
          p.node.kind ≠ "function_declarator"))) ∧
    (∀ n p, ctx.find_node_at_point point = .ok (some n) → n.parent = some p →
       p.node.kind = "function_declarator" →
       ctx.find_references path point =
         (ctx.simple_global_search path (find_function_refs_str n.node.text)).map some) := by
  cases hf : ctx.find_node_at_point point with
  | panic =>
    refine ⟨?_, ?_⟩
    · simp [ParserContext.find_references, hf, Outcome.bind]
    · intro n p hn; cases hn
  | error e =>
    refine ⟨?_, ?_⟩
    · simp [ParserContext.find_references, hf, Outcome.bind]
    · intro n p hn; cases hn
  | ok found =>
    cases found with
    | none =>
      refine ⟨?_, ?_⟩
      · simp [ParserContext.find_references, hf, Outcome.bind]
      · intro n p hn; cases hn
    | some n =>
      cases hp : n.parent with
      | none =>
        refine ⟨⟨fun _ => Or.inr (Or.inl ⟨n, rfl, hp⟩), fun _ => ?_⟩, ?_⟩
        · simp [ParserContext.find_references, hf, Outcome.bind, hp]
        · intro n' p' hn' hp' _
          cases hn'
          rw [hp] at hp'
          cases hp'
      | some p =>
        by_cases h1 : p.node.kind = "function_declarator"
        · refine ⟨⟨?_, ?_⟩, ?_⟩
          · intro habs
            simp only [ParserContext.find_references, hf, Outcome.bind, hp, h1,
              if_true] at habs
            exact absurd habs (outcome_map_some_ne_ok_none _)
          · rintro (h | ⟨n', hn', hpar⟩ | ⟨n', p', hn', hpar, hcl⟩)
            · cases h
            · cases hn'
              rw [hp] at hpar; cases hpar
            · cases hn'
              rw [hp] at hpar
              cases hpar
              exact absurd h1 hcl
          · intro n' p' hn' hp' _
            cases hn'
            rw [hp] at hp'
            cases hp'
            simp only [ParserContext.find_references, hf, Outcome.bind, hp, h1, if_true]
        · refine ⟨⟨fun _ => Or.inr (Or.inr ⟨n, p, rfl, hp, h1⟩), fun _ => ?_⟩, ?_⟩
          · simp [ParserContext.find_references, hf, Outcome.bind, hp, if_neg h1]
          · intro n' p' hn' hp' hcl
            cases hn'
            rw [hp] at hp'
            cases hp'
            exact absurd hcl h1

/-- Witness for C5: in the parse of `foo();\nvoid foo(a){}`, the cursor on
the declarator identifier on line 1 classifies as
(identifier, function_declarator) and `find_references` runs the global
call-expression search for `foo`. -/
theorem find_references_decision_witness :
    ctxA.find_references "/f.glsl" ⟨1, 5⟩ =
      (ctxA.simple_global_search "/f.glsl" (find_function_refs_str "foo")).map some :=
  (find_references_decision ctxA "/f.glsl" ⟨1, 5⟩).2
    ⟨[funcDeclA, funcDefA, rootA], identFooDecl⟩
    ⟨[funcDefA, rootA], funcDeclA⟩ rfl rfl rfl

/-- C6 counterexample: when the parser fails to produce a tree,
`ParserContext::new` does not propagate an error result — the `unwrap()` on
the parse result panics. -/
theorem parserContext_new_parse_failure_panics :
    ParserContext.new (.ok srcA) (fun _ => none) = .panic :=
  rfl

/-- C6 amended: an unreadable file is propagated by `ParserContext::new` as an
I/O error; a parse failure, however, is not propagated — the constructor
panics on it (yielding no partial tree either way); on success the context
holds the source, the tree and the line map. -/
theorem parserContext_new_amended :
    (∀ (e : String) (parse : List Nat → Option STree),
       ParserContext.new (.error e) parse = .error (.io e)) ∧
    (∀ (src : List Nat) (parse : List Nat → Option STree), parse src = none →
       ParserContext.new (.ok src) parse = .panic) ∧
    (∀ (src : List Nat) (parse : List Nat → Option STree) (t : STree), parse src = some t →
       ParserContext.new (.ok src) parse = .ok ⟨src, t, LineMap.new src⟩) := by
  refine ⟨fun e parse => rfl, fun src parse h => ?_, fun src parse t h => ?_⟩
  · simp [ParserContext.new, h]
  · simp [ParserContext.new, h]

/-- Witness for the amended C6, at a concrete read error, a concrete parse
failure and a concrete successful parse. -/
theorem parserContext_new_amended_witness :
    ParserContext.new (.error "no such file") (fun _ => some rootA) = .error (.io "no such file") ∧
    ParserContext.new (.ok srcC) (fun _ => none) = .panic ∧
    ParserContext.new (.ok srcA) (fun _ => some rootA) = .ok ⟨srcA, rootA, LineMap.new srcA⟩ :=
  ⟨parserContext_new_amended.1 "no such file" (fun _ => some rootA),
   parserContext_new_amended.2.1 srcC (fun _ => none) rfl,
   parserContext_new_amended.2.2 srcA (fun _ => some rootA) rootA rfl⟩

/-- C7: URI construction from the request path is not fallible at the
interface — on the relative path `relative.glsl`, with the cursor on a symbol
whose search produces at least one location, both `find_definitions` and
`find_references` crash (the `unwrap()` on `Url::from_file_path` panics)
instead of propagating an error. -/
theorem find_definitions_invalid_path_panics :
    ctxA.find_definitions "relative.glsl" ⟨0, 1⟩ = .panic ∧
      ctxA.find_references "relative.glsl" ⟨1, 5⟩ = .panic :=
  ⟨rfl, rfl⟩

/-- Ancestors whose query yields no capture are climbed past without
affecting the result. -/
theorem climbLoop_skip {path qstr : String} {q : CompiledQuery}
    (hq : Query.new qstr = .ok q) :
    ∀ (pre rest : List STree), (∀ x ∈ pre, queryCaptures q x = []) →
      climbLoop path qstr (pre ++ rest) = climbLoop path qstr rest
  | [], _, _ => rfl
  | x :: pre, rest, h => by
    simp only [List.cons_append, climbLoop, hq]
    rw [h x (List.mem_cons_self x pre)]
    simp only [pushLocations, List.isEmpty_nil, if_true]
    exact climbLoop_skip hq pre rest (fun y hy => h y (List.mem_cons_of_mem x hy))

/-- The first ancestor whose query yields a capture ends the climb: the loop
returns exactly the locations pushed for that ancestor's captures. -/
theorem climbLoop_hit {path qstr : String} {q : CompiledQuery} {a : STree} {rest : List STree}
    (hq : Query.new qstr = .ok q) (ha : queryCaptures q a ≠ []) :
    climbLoop path qstr (a :: rest) = pushLocations path (queryCaptures q a) := by
  simp only [climbLoop, hq]
  cases hpl : pushLocations path (queryCaptures q a) with
  | ok locs =>
    have hempty : locs.isEmpty = false := by
      rw [pushLocations_ok_isEmpty hpl]
      simpa using ha
    simp [hempty]
  | error e => exact absurd hpl (pushLocations_ne_error _ _ _)
  | panic => rfl

/-- C2: the scope-climbing search returns exactly the matches of the nearest
ancestor (in parent order from the use site) whose query yields any match;
ancestors beyond it are never consulted. -/
theorem tree_climbing_nearest (ctx : ParserContext) (path : String) (start_node : TSNode)
    (q : CompiledQuery) (pre post : List STree) (a : STree)
    (hspine : start_node.spine = pre ++ a :: post)
    (hq : Query.new (find_variable_def_str start_node.node.text) = .ok q)
    (hpre : ∀ x ∈ pre, queryCaptures q x = [])
    (ha : queryCaptures q a ≠ []) :
    ctx.tree_climbing_search path start_node = pushLocations path (queryCaptures q a) := by
  simp only [ParserContext.tree_climbing_search]
  rw [hspine, climbLoop_skip hq pre (a :: post) hpre, climbLoop_hit hq ha]

/-- Witness for C2: in the shadowing scenario of example B, the use of `x`
inside the inner block resolves through the climb to the captures of the
inner block — the inner re-declaration of `x` — and the outer block (which
also declares `x`) is never consulted. -/
theorem tree_climbing_nearest_witness :
    ctxB.tree_climbing_search "/b.glsl" xUseNode =
      pushLocations "/b.glsl" (queryCaptures ⟨.variableDef, "x"⟩ innerBlockB) :=
  tree_climbing_nearest ctxB "/b.glsl" xUseNode ⟨.variableDef, "x"⟩
    [assignB, exprStmtB] [outerBlockB, rootB] innerBlockB rfl rfl
    (by
      intro x hx
      cases hx with
      | head => rfl
      | tail _ hx =>
        cases hx with
        | head => rfl
        | tail _ hx => cases hx)
    (by
      have h : queryCaptures ⟨.variableDef, "x"⟩ innerBlockB = [identXInner] := rfl
      rw [h]
      exact List.cons_ne_nil _ _)

/-- C3: each climbing step moves to a strictly shallower ancestor (the spine
shrinks), and when no ancestor up to the root yields a match the search
returns the empty list as a success value. -/
theorem tree_climbing_terminates_empty :
    (∀ n p : TSNode, n.parent = some p → p.spine.length < n.spine.length) ∧
    (∀ (ctx : ParserContext) (path : String) (start_node : TSNode) (q : CompiledQuery),
       Query.new (find_variable_def_str start_node.node.text) = .ok q →
       (∀ x ∈ start_node.spine, queryCaptures q x = []) →
       ctx.tree_climbing_search path start_node = .ok []) := by
  constructor
  · intro n p hp
    cases n with
    | mk spine node =>
      cases spine with
      | nil => cases hp
      | cons a rest => cases hp; simp
  · intro ctx path sn q hq hall
    simp only [ParserContext.tree_climbing_search]
    conv_lhs => rw [← List.append_nil sn.spine]
    rw [climbLoop_skip hq sn.spine [] hall]
    rfl

/-- Witness for C3: a use of the undeclared variable `y` in example B climbs
through every ancestor up to the root and returns `Ok` of the empty list. -/
theorem tree_climbing_terminates_empty_witness :
    ctxB.tree_climbing_search "/b.glsl" yUseNode = .ok [] :=
  tree_climbing_terminates_empty.2 ctxB "/b.glsl" yUseNode ⟨.variableDef, "y"⟩ rfl
    (by
      intro x hx
      cases hx with
      | head => rfl
      | tail _ hx =>
        cases hx with
        | head => rfl
        | tail _ hx =>
          cases hx with
          | head => rfl
          | tail _ hx =>
            cases hx with
            | head => rfl
            | tail _ hx =>
              cases hx with
              | head => rfl
              | tail _ hx => cases hx)

/-- Evaluation of the node locator when the byte read is in bounds and, in
the look-behind case, the character is at least 1. -/
theorem find_node_at_point_eval (ctx : ParserContext) (pos : Position) (b : Nat)
    (hb : ctx.source[ctx.linemap.offset_for_position pos]? = some b)
    (hc : isAsciiAlphabetic b = false → 1 ≤ pos.character) :
    ctx.find_node_at_point pos = .ok
      (if isAsciiAlphabetic b then
        namedDescendantForPointRange ctx.tree ⟨pos.line, pos.character⟩
          ⟨pos.line, pos.character + 1⟩
      else
        namedDescendantForPointRange ctx.tree ⟨pos.line, pos.character - 1⟩
          ⟨pos.line, pos.character⟩) := by
  cases halpha : isAsciiAlphabetic b with
  | true => simp [ParserContext.find_node_at_point, hb, halpha]
  | false =>
    have hch := hc halpha
    cases hpc : pos.character with
    | zero => rw [hpc] at hch; omega
    | succ c => simp [ParserContext.find_node_at_point, hb, halpha, hpc]

/-- C4: for a cursor whose mapped offset is within the text, the locator
reads the byte there; when it is not alphabetic it queries the smallest named
node over the look-behind range `[character - 1, character]` on that row,
otherwise over `[character, character + 1]`, and returns that node or `None`
when no named node covers the adjusted range. -/
theorem find_node_at_point_locates (ctx : ParserContext) (pos : Position) (b : Nat)
    (hb : ctx.source[ctx.linemap.offset_for_position pos]? = some b)
    (hc : isAsciiAlphabetic b = false → 1 ≤ pos.character) :
    ctx.find_node_at_point pos = .ok
      (if isAsciiAlphabetic b then
        namedDescendantForPointRange ctx.tree ⟨pos.line, pos.character⟩
          ⟨pos.line, pos.character + 1⟩
      else
        namedDescendantForPointRange ctx.tree ⟨pos.line, pos.character - 1⟩
          ⟨pos.line, pos.character⟩) :=
  find_node_at_point_eval ctx pos b hb hc

/-- Witness for C4: in example A the cursor at (0, 3) sits just after `foo`
on the byte `(`; the look-behind range resolves to the callee identifier. -/
theorem find_node_at_point_locates_witness :
    ctxA.find_node_at_point ⟨0, 3⟩ = .ok
      (if isAsciiAlphabetic 40 then
        namedDescendantForPointRange ctxA.tree ⟨0, 3⟩ ⟨0, 4⟩
      else
        namedDescendantForPointRange ctxA.tree ⟨0, 2⟩ ⟨0, 3⟩) :=
  find_node_at_point_locates ctxA ⟨0, 3⟩ 40 rfl (fun _ => by decide)

/-- C10: the node locator is safe exactly under the unstated precondition
that the mapped offset is strictly below the source length and that, in the
look-behind case (non-alphabetic byte), the cursor's character is at least 1;
outside the precondition it panics (out-of-bounds byte index, or unsigned
underflow of `start.column -= 1`) instead of returning `None`. -/
theorem find_node_at_point_safety (ctx : ParserContext) (pos : Position) :
    (ctx.source.length ≤ ctx.linemap.offset_for_position pos →
       ctx.find_node_at_point pos = .panic) ∧
    (∀ b, ctx.source[ctx.linemap.offset_for_position pos]? = some b →
       isAsciiAlphabetic b = false → pos.character = 0 →
       ctx.find_node_at_point pos = .panic) ∧
    (ctx.linemap.offset_for_position pos < ctx.source.length →
       (∀ b, ctx.source[ctx.linemap.offset_for_position pos]? = some b →
          isAsciiAlphabetic b = false → 1 ≤ pos.character) →
       ∃ r, ctx.find_node_at_point pos = .ok r) := by
  refine ⟨?_, ?_, ?_⟩
  · intro hlen
    have hnone : ctx.source[ctx.linemap.offset_for_position pos]? = none := by
      rw [List.getElem?_eq_none_iff]
      exact hlen
    simp [ParserContext.find_node_at_point, hnone]
  · intro b hb hal hch
    simp [ParserContext.find_node_at_point, hb, hal, hch]
  · intro hlt hch
    obtain ⟨b, hb⟩ : ∃ b, ctx.source[ctx.linemap.offset_for_position pos]? = some b := by
      rw [List.getElem?_eq_getElem hlt]
      exact ⟨_, rfl⟩
    exact ⟨_, find_node_at_point_eval ctx pos b hb (hch b hb)⟩

/-- Witness for C10: an offset past the end of example A's source panics; a
cursor at character 0 on the non-alphabetic first byte of example D panics;
the in-bounds cursor of example A at (0, 1) returns `ok`. -/
theorem find_node_at_point_safety_witness :
    ctxA.find_node_at_point ⟨0, 100⟩ = .panic ∧
    ctxD.find_node_at_point ⟨0, 0⟩ = .panic ∧
    ∃ r, ctxA.find_node_at_point ⟨0, 1⟩ = .ok r :=
  ⟨(find_node_at_point_safety ctxA ⟨0, 100⟩).1 (by decide),
   (find_node_at_point_safety ctxD ⟨0, 0⟩).2.1 40 rfl rfl rfl,
   (find_node_at_point_safety ctxA ⟨0, 1⟩).2.2 (by decide) (fun _ _ _ => by decide)⟩

/-- A node with a parent carries it at the head of its spine. -/
theorem spine_of_parent {n p : TSNode} (h : n.parent = some p) :
    n.spine = p.node :: p.spine := by
  cases n with
  | mk spine node =>
    cases spine with
    | nil => cases h
    | cons a rest => cases h; rfl

/-- C8: a query-compilation failure for the substituted pattern is propagated
as an error result from `find_definitions` (both strategies) and from
`find_references`, never silently converted into an empty match list. -/
theorem query_compile_error_propagates (ctx : ParserContext) (path : String)
    (point : Position) :
    (∀ n p msg, ctx.find_node_at_point point = .ok (some n) → n.parent = some p →
       p.node.kind = "call_expression" →
       Query.new (find_function_def_str n.node.text) = .error msg →
       ctx.find_definitions path point = .error (.query msg)) ∧
    (∀ n p msg, ctx.find_node_at_point point = .ok (some n) → n.parent = some p →
       n.node.kind = "identifier" →
       (p.node.kind = "argument_list" ∨ p.node.kind = "field_expression" ∨
        p.node.kind = "binary_expression" ∨ p.node.kind = "assignment_expression") →
       Query.new (find_variable_def_str n.node.text) = .error msg →
       ctx.find_definitions path point = .error (.query msg)) ∧
    (∀ n p msg, ctx.find_node_at_point point = .ok (some n) → n.parent = some p →
       p.node.kind = "function_declarator" →
       Query.new (find_function_refs_str n.node.text) = .error msg →
       ctx.find_references path point = .error (.query msg)) := by
  refine ⟨?_, ?_, ?_⟩
  · intro n p msg hf hp hk herr
    simp only [ParserContext.find_definitions, hf, Outcome.bind, hp, hk, if_true,
      ParserContext.simple_global_search, herr, Outcome.map]
  · intro n p msg hf hp hk hks herr
    have hne : ¬p.node.kind = "call_expression" := by
      rcases hks with h | h | h | h <;> rw [h] <;> decide
    simp only [ParserContext.find_definitions, hf, Outcome.bind, hp, if_neg hne]
    rw [if_pos ⟨hk, hks⟩]
    simp only [ParserContext.tree_climbing_search, spine_of_parent hp, climbLoop, herr,
      Outcome.map]
  · intro n p msg hf hp hk herr
    simp only [ParserContext.find_references, hf, Outcome.bind, hp, hk, if_true,
      ParserContext.simple_global_search, herr, Outcome.map]

/-- Witness for C8: in the parse of `fo"o();` the callee identifier contains
a double quote; the substituted definition query is malformed and
`find_definitions` surfaces the compile error. -/
theorem query_compile_error_propagates_witness :
    ctxC.find_definitions "/c.glsl" ⟨0, 1⟩ = .error (.query "Invalid syntax") :=
  (query_compile_error_propagates ctxC "/c.glsl" ⟨0, 1⟩).1
    ⟨[callExprC, exprStmtC, rootC], identQuoteC⟩
    ⟨[exprStmtC, rootC], callExprC⟩ "Invalid syntax" rfl rfl rfl rfl

/-- Extracting the slot of a template instance recovers the interpolated
text. -/
theorem extractSlot_append (pre suf mid : List Char) :
    extractSlot pre suf (pre ++ mid ++ suf) = some mid := by
  unfold extractSlot
  have hpre : pre.isPrefixOf (pre ++ mid ++ suf) = true := by
    rw [List.append_assoc]
    exact List.isPrefixOf_iff_prefix.mpr (List.prefix_append _ _)
  have hsuf : suf.isSuffixOf (pre ++ mid ++ suf) = true :=
    List.isSuffixOf_iff_suffix.mpr (List.suffix_append _ _)
  have hlen : Nat.ble (pre.length + suf.length) (pre ++ mid ++ suf).length = true := by
    apply Nat.ble_eq_true_of_le
    simp only [List.length_append]
    omega
  rw [hpre, hsuf, hlen]
  simp only [Bool.and_self, if_true]
  have harith : (pre ++ mid ++ suf).length - pre.length - suf.length = mid.length := by
    simp only [List.length_append]
    omega
  rw [harith, List.append_assoc, List.drop_left, List.take_left]

/-- Lists that disagree at an index are not prefixes of one another's
extensions. -/
theorem isPrefixOf_false_of_ne_at {a b : List Char} (c : List Char) (i : Nat)
    (hia : i < a.length) (hib : i < b.length) (hne : a[i]? ≠ b[i]?) :
    a.isPrefixOf (b ++ c) = false := by
  rw [Bool.eq_false_iff]
  intro htrue
  obtain ⟨t, ht⟩ := List.isPrefixOf_iff_prefix.mp htrue
  apply hne
  calc a[i]? = (a ++ t)[i]? := (List.getElem?_append_left hia).symm
    _ = (b ++ c)[i]? := by rw [ht]
    _ = b[i]? := List.getElem?_append_left hib

/-- A failed prefix check fails the whole template recognition. -/
theorem extractSlot_none_of_prefix_false {pre s : List Char} (suf : List Char)
    (h : pre.isPrefixOf s = false) : extractSlot pre suf s = none := by
  unfold extractSlot
  rw [h]
  simp

/-- The character data of a definition-template instance. -/
theorem find_function_def_str_data (ident : String) :
    (find_function_def_str ident).data =
      FUNC_DEF_PRE.data ++ ident.data ++ FUNC_DEF_SUF.data := by
  simp [find_function_def_str, String.data_append]

/-- The character data of a references-template instance. -/
theorem find_function_refs_str_data (ident : String) :
    (find_function_refs_str ident).data =
      FUNC_REFS_PRE.data ++ ident.data ++ FUNC_REFS_SUF.data := by
  simp [find_function_refs_str, String.data_append]

/-- The character data of a variable-template instance. -/
theorem find_variable_def_str_data (ident : String) :
    (find_variable_def_str ident).data =
      VAR_DEF_PRE.data ++ ident.data ++ VAR_DEF_SUF.data := by
  simp [find_variable_def_str, String.data_append]

/-- Compiling a definition-template instance of a safe identifier. -/
theorem Query_new_functionDef (ident : String) (h : identSafe ident = true) :
    Query.new (find_function_def_str ident) = .ok ⟨.functionDef, ident⟩ := by
  unfold Query.new
  rw [find_function_def_str_data, extractSlot_append]
  simp [h]

/-- Compiling a references-template instance of a safe identifier: the
definition template is not recognised (the prefixes differ at index 32). -/
theorem Query_new_functionRefs (ident : String) (h : identSafe ident = true) :
    Query.new (find_function_refs_str ident) = .ok ⟨.functionRefs, ident⟩ := by
  unfold Query.new
  rw [find_function_refs_str_data, List.append_assoc,
    extractSlot_none_of_prefix_false _
      (isPrefixOf_false_of_ne_at _ 32 (by decide) (by decide) (by decide)),
    ← List.append_assoc, extractSlot_append]
  simp [h]

/-- Compiling a variable-template instance of a safe identifier: the other
two templates are not recognised (the prefixes differ at index 31). -/
theorem Query_new_variableDef (ident : String) (h : identSafe ident = true) :
    Query.new (find_variable_def_str ident) = .ok ⟨.variableDef, ident⟩ := by
  unfold Query.new
  rw [find_variable_def_str_data, List.append_assoc,
    extractSlot_none_of_prefix_false _
      (isPrefixOf_false_of_ne_at _ 31 (by decide) (by decide) (by decide)),
    extractSlot_none_of_prefix_false _
      (isPrefixOf_false_of_ne_at _ 31 (by decide) (by decide) (by decide)),
    ← List.append_assoc, extractSlot_append]
  simp [h]

/-- The anchored pattern `^ident$` matches a text exactly when the text
equals the identifier. -/
theorem regexTest_anchor (ident text : String) :
    regexTest ("^" ++ ident ++ "$") text = true ↔ text = ident := by
  have hdata : ("^" ++ ident ++ "$").data = ('^' :: ident.data) ++ ['$'] := by
    simp [String.data_append]
  unfold regexTest
  rw [hdata]
  have h1 : (('^' :: ident.data) ++ ['$']).head? = some '^' := rfl
  have h2 : (('^' :: ident.data) ++ ['$']).getLast? = some '$' := List.getLast?_concat _
  have h3 : ((('^' :: ident.data) ++ ['$']).drop 1).dropLast = ident.data := by
    rw [List.cons_append, List.drop_succ_cons, List.drop_zero, List.dropLast_concat]
  rw [h1, h2, h3]
  simp only [beq_self_eq_true, Bool.true_and, beq_iff_eq]
  constructor
  · intro hh
    cases text
    cases ident
    exact congrArg String.mk hh
  · intro hh
    rw [hh]

mutual
/-- Every capture a compiled query produces has exactly the query's
identifier as its text. -/
theorem queryCaptures_text (q : CompiledQuery) (t : STree) (c : STree)
    (hc : c ∈ queryCaptures q t) : c.text = q.ident := by
  match t with
  | .mk kk n sp ep tx cs =>
    rw [queryCaptures] at hc
    rcases List.mem_append.mp hc with h1 | h2
    · split at h1
      · exact matchChildren_text q cs c h1
      · simp at h1
    · exact queryCapturesF_text q cs c h2

/-- Children captured by a matched node have exactly the query's identifier
as their text. -/
theorem matchChildren_text (q : CompiledQuery) (f : SForest) (c : STree)
    (hc : c ∈ matchChildren q f) : c.text = q.ident := by
  match f with
  | .nil => rw [matchChildren] at hc; simp at hc
  | .cons x rest =>
    rw [matchChildren] at hc
    rcases List.mem_append.mp hc with h1 | h2
    · split at h1
      · next hcond =>
        simp only [List.mem_singleton] at h1
        subst h1
        exact (regexTest_anchor q.ident c.text).mp ((Bool.and_eq_true _ _).mp hcond).2
      · simp at h1
    · exact matchChildren_text q rest c h2

/-- Forest version of `queryCaptures_text`. -/
theorem queryCapturesF_text (q : CompiledQuery) (f : SForest) (c : STree)
    (hc : c ∈ queryCapturesF q f) : c.text = q.ident := by
  match f with
  | .nil => rw [queryCapturesF] at hc; simp at hc
  | .cons x rest =>
    rw [queryCapturesF] at hc
    rcases List.mem_append.mp hc with h1 | h2
    · exact queryCaptures_text q x c h1
    · exact queryCapturesF_text q rest c h2
end

/-- C9: for an identifier free of pattern-special characters, all three
substituted templates compile to queries for exactly that identifier, the
anchored pattern built around it matches a text exactly when the text equals
the identifier, and every capture any such query produces has exactly that
text — so searching for `foo` can never return `foobar` or `barfoo`. -/
theorem search_exact_match (ident : String) (h : identSafe ident = true) :
    Query.new (find_function_def_str ident) = .ok ⟨.functionDef, ident⟩ ∧
    Query.new (find_function_refs_str ident) = .ok ⟨.functionRefs, ident⟩ ∧
    Query.new (find_variable_def_str ident) = .ok ⟨.variableDef, ident⟩ ∧
    (∀ text, regexTest ("^" ++ ident ++ "$") text = true ↔ text = ident) ∧
    (∀ (k : PatternKind) (t c : STree), c ∈ queryCaptures ⟨k, ident⟩ t → c.text = ident) :=
  ⟨Query_new_functionDef ident h, Query_new_functionRefs ident h,
   Query_new_variableDef ident h, fun text => regexTest_anchor ident text,
   fun k t c hc => queryCaptures_text ⟨k, ident⟩ t c hc⟩

/-- Witness for C9: the anchored pattern for `foo` rejects `foobar`, and the
definition template for `foo` compiles to the exact-match query. -/
theorem search_exact_match_witness :
    (regexTest ("^" ++ "foo" ++ "$") "foobar" = true ↔ "foobar" = "foo") ∧
      Query.new (find_function_def_str "foo") = .ok ⟨.functionDef, "foo"⟩ :=
  ⟨(search_exact_match "foo" (by decide)).2.2.2.1 "foobar",
   (search_exact_match "foo" (by decide)).1⟩
